import Mathlib

/-!
Verification of the session and dispatch layer of kcp-go (`sess.go`).

The Go source is shallowly embedded over `List Nat` byte buffers.  External
collaborators that `sess.go` only consumes through an interface (the block
cipher `BlockCrypt`, the CRC32 function of the Go standard library, and the
KCP ARQ instance) are either passed as function parameters or modelled from
the specification; every such modelled definition carries a doc comment
saying so.  All other definitions are transcribed from `sess.go`.
-/

namespace KcpGo

/-! Constants from `sess.go`. -/

/-- 16-bytes nonce for each packet (`sess.go` line 65). -/
def nonceSize : Nat := 16

/-- 4-bytes packet checksum (`sess.go` line 68). -/
def crcSize : Nat := 4

/-- Overall crypto header size (`sess.go` line 71). -/
def cryptHeaderSize : Nat := nonceSize + crcSize

/-- Maximum packet size (`sess.go` line 74). -/
def mtuLimit : Nat := 1500

/-- Accept backlog (`sess.go` line 77). -/
def acceptBacklog : Nat := 128

/-- Modelled from the spec: the FEC data-shard flag tag.  `fec.go` is not part
of the sources; the spec fixes the 16-bit tags `0x00F1` (data) and
`0x00F2` (parity). -/
def typeData : Nat := 0xf1

/-- Modelled from the spec: the FEC parity-shard flag tag `0x00F2`. -/
def typeParity : Nat := 0xf2

/-- Modelled from the spec: `fecHeaderSizePlus2`, the 6-byte FEC header
(seqid, flag) plus the 2-byte little-endian payload-size prefix described in
the spec's FEC section; `fec.go` is not part of the sources. -/
def fecHeaderSizePlus2 : Nat := 8

/-! Little-endian readers and writer, after Go's `encoding/binary`:
`Uint16`/`Uint32` read the first 2 or 4 bytes of a slice, `PutUint32`
writes 4 bytes. -/

/-- `binary.LittleEndian.Uint16` over the first two bytes of a buffer. -/
def leUint16 (b : List Nat) : Nat :=
  b.getD 0 0 + 256 * b.getD 1 0

/-- `binary.LittleEndian.Uint32` over the first four bytes of a buffer. -/
def leUint32 (b : List Nat) : Nat :=
  b.getD 0 0 + 256 * b.getD 1 0 + 65536 * b.getD 2 0 + 16777216 * b.getD 3 0

/-- The four bytes `binary.LittleEndian.PutUint32` stores for a value. -/
def leBytes32 (v : Nat) : List Nat :=
  [v % 256, v / 256 % 256, v / 65536 % 256, v / 16777216 % 256]

/-! ### Session packet input (`UDPSession.packetInput`, `sess.go` 781-800)

The observable effect of one call: how many times the cipher's `Decrypt`
ran, how much `InCsumErrors` advanced, and the buffer handed to `kcpInput`
(and hence to ARQ input), if any.  The cipher is `Option`-valued exactly
like the nil-able `block BlockCrypt` field; the CRC32 function and the ARQ
overhead constant `IKCP_OVERHEAD` (from `kcp.go`, not in the sources) are
parameters. -/

structure PacketInputResult where
  decryptCalls : Nat
  csumDelta : Nat
  arqInput : Option (List Nat)
deriving DecidableEq, Repr

/-- Embedding of `UDPSession.packetInput`.  `block` is the optional cipher
(its in-place `Decrypt` as a function), `crc` is `crc32.ChecksumIEEE`,
`ovh` is `IKCP_OVERHEAD`. -/
def UDPSession.packetInput (block : Option (List Nat → List Nat))
    (crc : List Nat → Nat) (ovh : Nat) (data : List Nat) : PacketInputResult :=
  match block with
  | some decrypt =>
    if cryptHeaderSize ≤ data.length then
      -- s.block.Decrypt(data, data); data = data[nonceSize:]
      let d2 := (decrypt data).drop nonceSize
      -- checksum := crc32.ChecksumIEEE(data[crcSize:])
      if crc (d2.drop crcSize) = leUint32 d2 then
        let d3 := d2.drop crcSize
        if ovh ≤ d3.length then ⟨1, 0, some d3⟩ else ⟨1, 0, none⟩
      else ⟨1, 1, none⟩
    else
      -- block non-nil but the packet is too short: `decrypted` stays false
      ⟨0, 0, none⟩
  | none =>
    if ovh ≤ data.length then ⟨0, 0, some data⟩ else ⟨0, 0, none⟩

/-! ### Listener dispatch (`Listener.packetInput`, `sess.go` 903-961)

The post-decryption stage (lines 919-959) is embedded as
`listenerDispatch`, restricted to the single remote address the datagram
came from: `sessExists`/`sessConv` stand for the session-table lookup and
the found session's `kcp.conv`, `slack` for
`len(l.chAccepts) < cap(l.chAccepts)`.  The result records the data handed
to the existing session's `kcpInput`, whether the old session was closed,
and the `(conv, first input)` of a session that was created, registered
and enqueued on the accept queue (those three effects occur together in
the source, lines 952-957). -/

structure DispatchResult where
  delivered : Option (List Nat)
  oldClosed : Bool
  created : Option (Nat × List Nat)
deriving DecidableEq, Repr

/-- The no-effect outcome: the datagram is dropped. -/
def noEffect : DispatchResult := ⟨none, false, none⟩

/-- Embedding of the `(conv, sn, convRecovered)` recovery of
`sess.go` 924-939.  `snOff` is `IKCP_SN_OFFSET`, `ovh` is `IKCP_OVERHEAD`
(both from `kcp.go`, passed as parameters). -/
def parseConvSn (snOff ovh : Nat) (data : List Nat) : Nat × Nat × Bool :=
  let fecFlag := leUint16 (data.drop 4)
  if fecFlag = typeData ∨ fecFlag = typeParity then
    -- packet with FEC
    if fecFlag = typeData ∧ fecHeaderSizePlus2 + ovh ≤ data.length then
      (leUint32 (data.drop fecHeaderSizePlus2),
       leUint32 (data.drop (fecHeaderSizePlus2 + snOff)), true)
    else
      (0, 0, false)
  else
    -- packet without FEC
    (leUint32 data, leUint32 (data.drop snOff), true)

/-- Embedding of `sess.go` 919-959: the dispatch decision taken on a
decrypted datagram. -/
def listenerDispatch (snOff ovh : Nat) (sessExists : Bool) (sessConv : Nat)
    (slack : Bool) (data : List Nat) : DispatchResult :=
  if ovh ≤ data.length then
    let p := parseConvSn snOff ovh data
    let conv := p.1
    let sn := p.2.1
    let convRecovered := p.2.2
    if sessExists then
      if convRecovered = false ∨ conv = sessConv then
        -- parity data or valid conversation: s.kcpInput(data)
        ⟨some data, false, none⟩
      else if sn = 0 then
        -- should replace current connection: s.Close(); s = nil
        -- then the `s == nil && convRecovered` block runs, gated on slack
        if slack then ⟨none, true, some (conv, data)⟩
        else ⟨none, true, none⟩
      else
        -- mismatched conversation with sn != 0: no branch taken
        noEffect
    else
      if convRecovered ∧ slack then ⟨none, false, some (conv, data)⟩
      else noEffect
  else noEffect

structure ListenerInputResult where
  decryptCalls : Nat
  csumDelta : Nat
  dispatch : DispatchResult
deriving DecidableEq, Repr

/-- Embedding of `Listener.packetInput` (`sess.go` 903-961): the crypto
stage followed by `listenerDispatch`. -/
def Listener.packetInput (block : Option (List Nat → List Nat))
    (crc : List Nat → Nat) (snOff ovh : Nat) (sessExists : Bool)
    (sessConv : Nat) (slack : Bool) (data : List Nat) : ListenerInputResult :=
  match block with
  | some decrypt =>
    if cryptHeaderSize ≤ data.length then
      let d2 := (decrypt data).drop nonceSize
      if crc (d2.drop crcSize) = leUint32 d2 then
        ⟨1, 0, listenerDispatch snOff ovh sessExists sessConv slack (d2.drop crcSize)⟩
      else ⟨1, 1, noEffect⟩
    else ⟨0, 0, noEffect⟩
  | none => ⟨0, 0, listenerDispatch snOff ovh sessExists sessConv slack data⟩

/-! ### Close (`UDPSession.Close`, `sess.go` 422-448)

Close is guarded by `sync.Once`, so calls are effectively serialized; the
state records the observable teardown effects: the `die` one-shot, the
`CurrEstab` gauge, the count of `kcp.flush(false)` calls made under the
mutex, registration in the owning listener's table, and the socket. -/

structure SessCloseState where
  dieClosed : Bool
  currEstab : Int
  flushCalls : Nat
  hasListener : Bool
  ownConn : Bool
  registered : Bool
  socketClosed : Bool
deriving DecidableEq, Repr

inductive CloseRet where
  /-- The teardown result of the first call (`nil`, or the socket's own
  close result when the session owns the socket). -/
  | teardown
  /-- `io.ErrClosedPipe`, returned by every call after the first. -/
  | errClosedPipe
deriving DecidableEq, Repr

/-- Embedding of `UDPSession.Close`. -/
def UDPSession.Close (st : SessCloseState) : CloseRet × SessCloseState :=
  if st.dieClosed then
    -- dieOnce already fired: return errors.WithStack(io.ErrClosedPipe)
    (.errClosedPipe, st)
  else
    let st1 : SessCloseState :=
      { st with dieClosed := true, currEstab := st.currEstab - 1,
                flushCalls := st.flushCalls + 1 }
    if st.hasListener then
      -- l.closeSession(s.remote); return nil
      (.teardown, { st1 with registered := false })
    else if st.ownConn then
      -- return s.conn.Close()
      (.teardown, { st1 with socketClosed := true })
    else
      (.teardown, st1)

/-- `N` successive calls to `Close`, with the list of results. -/
def closeN : Nat → SessCloseState → List CloseRet × SessCloseState
  | 0, st => ([], st)
  | n + 1, st =>
    let r := UDPSession.Close st
    let rs := closeN n r.2
    (r.1 :: rs.1, rs.2)

/-! ### Post-processor crypto step (`UDPSession.postProcess`, `sess.go` 636-648)

The crc32-and-encryption block applied to one outbound buffer when a
cipher is configured.  `nonce16` is the fresh value the `Entropy` source
fills into the first 16 bytes, `crc` is `crc32.ChecksumIEEE`, `encrypt`
the cipher's in-place `Encrypt`. -/

def UDPSession.cryptoWrap (nonce16 : List Nat) (crc : List Nat → Nat)
    (encrypt : List Nat → List Nat) (buf : List Nat) : List Nat :=
  -- s.nonce.Fill(buf[:nonceSize])
  let b1 := nonce16 ++ buf.drop nonceSize
  -- checksum := crc32.ChecksumIEEE(buf[cryptHeaderSize:])
  let checksum := crc (b1.drop cryptHeaderSize)
  -- binary.LittleEndian.PutUint32(buf[nonceSize:], checksum)
  let b2 := b1.take nonceSize ++ leBytes32 checksum ++ b1.drop cryptHeaderSize
  -- s.block.Encrypt(buf, buf)
  encrypt b2

/-! ### Read (`UDPSession.Read`, `sess.go` 262-333)

Modelled from the spec: the consumed ARQ surface `PeekSize`/`Recv` is a
queue of assembled messages — `PeekSize` reports the size of the next
message (`0` when none is ready) and `Recv` pops it into the caller's
buffer.  Everything else is transcribed from `sess.go`.  When no data is
buffered, `Read` blocks on the select of lines 319-331; restricting the
model to the session's close signal, the select yields the closed-pipe
error when the `die` one-shot is closed and blocks otherwise. -/

structure ReadState where
  bufptr : List Nat
  recvbufCap : Nat
  rcvQueue : List (List Nat)
deriving DecidableEq, Repr

/-- Modelled from the spec: `kcp.PeekSize`, the size of the next assembled
ARQ message (`0` when none). -/
def ReadState.PeekSize (st : ReadState) : Nat := (st.rcvQueue.headD []).length

inductive ReadOutcome where
  /-- The call returned `n` bytes: `dst` is what was placed in the
  destination's prefix, `st` the session state after the call. -/
  | ok (n : Nat) (dst : List Nat) (st : ReadState)
  | errClosedPipe
  | blocked
deriving DecidableEq, Repr

/-- Embedding of `UDPSession.Read`; `dstLen` is `len(b)`. -/
def UDPSession.Read (dieClosed : Bool) (st : ReadState) (dstLen : Nat) :
    ReadOutcome :=
  if 0 < st.bufptr.length then
    -- n = copy(b, s.bufptr); s.bufptr = s.bufptr[n:]
    let n := min dstLen st.bufptr.length
    .ok n (st.bufptr.take n) { st with bufptr := st.bufptr.drop n }
  else if 0 < st.PeekSize then
    let msg := st.rcvQueue.headD []
    let rest := st.rcvQueue.tail
    if msg.length ≤ dstLen then
      -- s.kcp.Recv(b); return size, nil
      .ok msg.length msg { st with rcvQueue := rest }
    else
      -- grow recvbuf if needed, Recv into it, copy a prefix into b
      let cap2 := if st.recvbufCap < msg.length then msg.length else st.recvbufCap
      .ok dstLen (msg.take dstLen)
        { bufptr := msg.drop dstLen, recvbufCap := cap2, rcvQueue := rest }
  else if dieClosed then .errClosedPipe
  else .blocked

/-! ### SetMtu (`UDPSession.SetMtu`, `sess.go` 500-509)

The state records the values handed to `kcp.SetMtu`; the ARQ layer's own
reaction is outside this layer. -/

structure MtuState where
  kcpMtuCalls : List Int
deriving DecidableEq, Repr

/-- Embedding of `UDPSession.SetMtu`; `mtu` is a Go `int`, so `Int`. -/
def UDPSession.SetMtu (st : MtuState) (mtu : Int) : Bool × MtuState :=
  if (mtuLimit : Int) < mtu then (false, st)
  else (true, ⟨st.kcpMtuCalls ++ [mtu]⟩)

/-! ### WriteBuffers (`UDPSession.WriteBuffers`, `sess.go` 339-410)

Modelled from the spec: the consumed ARQ surface.  `Send` hands one
MSS-bounded chunk to the ARQ layer, which appends it as one segment to
the send backlog; `flush(false)` moves backlog segments into the
in-flight window (bounded by the send window), but reliable delivery
keeps every unacknowledged segment in the backlog, so the `WaitSnd`
count `snd_buf + snd_queue` is unchanged by a flush.  The splitting loop
and the window checks are transcribed from `sess.go`. -/

structure KCPState where
  sndQueue : Nat
  sndBuf : Nat
  sndWnd : Nat
  rmtWnd : Nat
  mss : Nat
deriving DecidableEq, Repr

/-- `kcp.WaitSnd`: the ARQ backlog, `len(snd_buf) + len(snd_queue)`. -/
def KCPState.WaitSnd (k : KCPState) : Nat := k.sndBuf + k.sndQueue

/-- Modelled from the spec: `kcp.Send` on one MSS-bounded chunk appends one
segment to the send queue. -/
def KCPState.Send (k : KCPState) : KCPState :=
  { k with sndQueue := k.sndQueue + 1 }

/-- Modelled from the spec: `kcp.flush(false)` moves queued segments into
the in-flight buffer up to the window, leaving `WaitSnd` unchanged. -/
def KCPState.flush (k : KCPState) : KCPState :=
  let moved := min k.sndQueue (k.sndWnd - k.sndBuf)
  { k with sndQueue := k.sndQueue - moved, sndBuf := k.sndBuf + moved }

/-- The per-slice splitting loop of `sess.go` 369-377: send MSS-sized
chunks until the remainder fits.  The fuel argument dominates the
iteration count (`len + 1` suffices whenever `mss ≥ 1`). -/
def sendSliceAux : Nat → KCPState → Nat → KCPState
  | 0, k, _ => k
  | fuel + 1, k, len =>
    if len ≤ k.mss then k.Send
    else sendSliceAux fuel k.Send (len - k.mss)

/-- The outer loop of `sess.go` 366-378 over the vector of slices,
represented by their lengths. -/
def writeSlices (k : KCPState) : List Nat → KCPState
  | [] => k
  | len :: rest => writeSlices (sendSliceAux (len + 1) k len) rest

/-- The number of `Send` calls the splitting loop makes on one slice. -/
def chunkCountAux : Nat → Nat → Nat → Nat
  | 0, _, _ => 0
  | fuel + 1, mss, len =>
    if len ≤ mss then 1
    else 1 + chunkCountAux fuel mss (len - mss)

/-- The number of `Send` calls made for a vector of slices. -/
def chunkCount (mss : Nat) : List Nat → Nat
  | [] => 0
  | len :: rest => chunkCountAux (len + 1) mss len + chunkCount mss rest

/-- Embedding of `UDPSession.WriteBuffers`: `some (n, k2)` when the call
returns successfully with `n` bytes written and ARQ state `k2`; `none`
when the window has no slack and the call blocks on the select of
lines 396-408. -/
def UDPSession.WriteBuffers (writeDelay : Bool) (k : KCPState)
    (v : List Nat) : Option (Nat × KCPState) :=
  -- waitsnd := s.kcp.WaitSnd()
  if k.WaitSnd < k.sndWnd ∧ k.WaitSnd < k.rmtWnd then
    let k1 := writeSlices k v
    -- waitsnd = s.kcp.WaitSnd()
    let k2 :=
      if k.sndWnd ≤ k1.WaitSnd ∨ k.rmtWnd ≤ k1.WaitSnd ∨ writeDelay = false
      then k1.flush else k1
    some (v.sum, k2)
  else none

end KcpGo

namespace KcpGo

/-! ### Helper lemmas -/

theorem KCPState.flush_WaitSnd (k : KCPState) : k.flush.WaitSnd = k.WaitSnd := by
  simp only [KCPState.flush, KCPState.WaitSnd]
  omega

theorem KCPState.Send_mss (k : KCPState) : k.Send.mss = k.mss := rfl

theorem sendSliceAux_mss (fuel len : Nat) (k : KCPState) :
    (sendSliceAux fuel k len).mss = k.mss := by
  induction fuel generalizing k len with
  | zero => rfl
  | succ m ih =>
    unfold sendSliceAux
    by_cases h : len ≤ k.mss
    · rw [if_pos h]; rfl
    · rw [if_neg h]; exact ih (len - k.mss) k.Send

theorem sendSliceAux_WaitSnd (fuel len : Nat) (k : KCPState) :
    (sendSliceAux fuel k len).WaitSnd = k.WaitSnd + chunkCountAux fuel k.mss len := by
  induction fuel generalizing k len with
  | zero => simp [sendSliceAux, chunkCountAux]
  | succ m ih =>
    unfold sendSliceAux chunkCountAux
    by_cases h : len ≤ k.mss
    · rw [if_pos h, if_pos h]
      simp [KCPState.Send, KCPState.WaitSnd]
      omega
    · rw [if_neg h, if_neg h, ih]
      simp only [KCPState.Send_mss]
      simp [KCPState.Send, KCPState.WaitSnd]
      omega

theorem writeSlices_WaitSnd (v : List Nat) (k : KCPState) :
    (writeSlices k v).WaitSnd = k.WaitSnd + chunkCount k.mss v := by
  induction v generalizing k with
  | nil => simp [writeSlices, chunkCount]
  | cons len rest ih =>
    unfold writeSlices chunkCount
    rw [ih, sendSliceAux_WaitSnd, sendSliceAux_mss]
    omega

theorem closeN_after_close (n : Nat) (st : SessCloseState)
    (h : st.dieClosed = true) :
    closeN n st = (List.replicate n CloseRet.errClosedPipe, st) := by
  induction n with
  | zero => simp [closeN]
  | succ m ih => simp [closeN, UDPSession.Close, h, ih, List.replicate_succ]

theorem leBytes32_length (v : Nat) : (leBytes32 v).length = crcSize := rfl

end KcpGo

namespace KcpGo

/-- C1 (counterexample): a single successful `Write` of a slice three times
the MSS, on a session whose windows are `snd_wnd = rmt_wnd = 2` with an
empty backlog, returns successfully yet leaves `WaitSnd = 3 > 2 =
min(snd_wnd, rmt_wnd)`. -/
theorem writeBuffers_exceeds_window :
    UDPSession.WriteBuffers false ⟨0, 0, 2, 2, 1⟩ [3]
      = some (3, ⟨1, 2, 2, 2, 1⟩) ∧
    ¬(KCPState.WaitSnd ⟨1, 2, 2, 2, 1⟩ ≤ min 2 2) := by decide

/-- C1 (amended): a successful `Write`/`WriteBuffers` return requires the
backlog to satisfy `WaitSnd < min(snd_wnd, rmt_wnd)` at admission; at the
moment of return `WaitSnd` equals the admission value plus the number of
MSS-sized chunks handed to ARQ `Send`, hence `WaitSnd + 1 ≤
min(snd_wnd, rmt_wnd) + chunks` — the bound depends on the size of the
byte slices passed in. -/
theorem writeBuffers_backlog_bound (wd : Bool) (k : KCPState) (v : List Nat)
    (n : Nat) (k2 : KCPState)
    (h : UDPSession.WriteBuffers wd k v = some (n, k2)) :
    k.WaitSnd < min k.sndWnd k.rmtWnd ∧
    k2.WaitSnd = k.WaitSnd + chunkCount k.mss v ∧
    k2.WaitSnd + 1 ≤ min k.sndWnd k.rmtWnd + chunkCount k.mss v ∧
    n = v.sum := by
  unfold UDPSession.WriteBuffers at h
  by_cases hw : k.WaitSnd < k.sndWnd ∧ k.WaitSnd < k.rmtWnd
  · rw [if_pos hw] at h
    simp only [Option.some.injEq, Prod.mk.injEq] at h
    obtain ⟨hn, hk2⟩ := h
    have hW : k2.WaitSnd = k.WaitSnd + chunkCount k.mss v := by
      rw [← hk2]
      split
      · rw [KCPState.flush_WaitSnd, writeSlices_WaitSnd]
      · rw [writeSlices_WaitSnd]
    refine ⟨by omega, hW, by omega, hn.symm⟩
  · rw [if_neg hw] at h
    cases h

/-- C1 (witness): the amended bound at a concrete successful write. -/
theorem writeBuffers_backlog_bound_witness :
    KCPState.WaitSnd ⟨0, 0, 2, 2, 1⟩ < min 2 2 ∧
    KCPState.WaitSnd ⟨0, 1, 2, 2, 1⟩
      = KCPState.WaitSnd ⟨0, 0, 2, 2, 1⟩ + chunkCount 1 [1] ∧
    KCPState.WaitSnd ⟨0, 1, 2, 2, 1⟩ + 1 ≤ min 2 2 + chunkCount 1 [1] ∧
    1 = [1].sum :=
  writeBuffers_backlog_bound false ⟨0, 0, 2, 2, 1⟩ [1] 1 ⟨0, 1, 2, 2, 1⟩ (by decide)

/-- C4: starting from an open session, `N ≥ 1` calls to `Close` produce one
transition: the first call closes the `die` one-shot, decrements
`CurrEstab` by one, performs one more ARQ `flush(false)`, deregisters from
the listener's table (or closes the socket it owns), and returns the
teardown result; the other `N - 1` calls return the closed-pipe error and
leave the state unchanged. -/
theorem close_idempotent (st : SessCloseState) (N : Nat)
    (h : st.dieClosed = false) (hN : 1 ≤ N) :
    (closeN N st).1
      = CloseRet.teardown :: List.replicate (N - 1) CloseRet.errClosedPipe ∧
    (closeN N st).2 = (UDPSession.Close st).2 ∧
    (UDPSession.Close st).1 = CloseRet.teardown ∧
    (UDPSession.Close st).2.dieClosed = true ∧
    (UDPSession.Close st).2.currEstab = st.currEstab - 1 ∧
    (UDPSession.Close st).2.flushCalls = st.flushCalls + 1 ∧
    (st.hasListener = true → (UDPSession.Close st).2.registered = false) ∧
    (st.hasListener = false → st.ownConn = true →
      (UDPSession.Close st).2.socketClosed = true) := by
  obtain ⟨M, rfl⟩ : ∃ M, N = M + 1 := ⟨N - 1, by omega⟩
  have hfalse : ¬(st.dieClosed = true) := by simp [h]
  have hdie : (UDPSession.Close st).2.dieClosed = true := by
    unfold UDPSession.Close
    rw [if_neg hfalse]
    by_cases h1 : st.hasListener <;> by_cases h2 : st.ownConn <;>
      simp [h1, h2]
  have htrace : closeN (M + 1) st
      = ((UDPSession.Close st).1 :: List.replicate M CloseRet.errClosedPipe,
         (UDPSession.Close st).2) := by
    show ((UDPSession.Close st).1 :: (closeN M (UDPSession.Close st).2).1,
          (closeN M (UDPSession.Close st).2).2) = _
    rw [closeN_after_close M _ hdie]
  refine ⟨?_, ?_, ?_, hdie, ?_, ?_, ?_, ?_⟩
  · rw [htrace]
    simp only [Nat.add_sub_cancel]
    unfold UDPSession.Close
    rw [if_neg hfalse]
    by_cases h1 : st.hasListener <;> by_cases h2 : st.ownConn <;> simp [h1, h2]
  · rw [htrace]
  · unfold UDPSession.Close
    rw [if_neg hfalse]
    by_cases h1 : st.hasListener <;> by_cases h2 : st.ownConn <;> simp [h1, h2]
  · unfold UDPSession.Close
    rw [if_neg hfalse]
    by_cases h1 : st.hasListener <;> by_cases h2 : st.ownConn <;> simp [h1, h2]
  · unfold UDPSession.Close
    rw [if_neg hfalse]
    by_cases h1 : st.hasListener <;> by_cases h2 : st.ownConn <;> simp [h1, h2]
  · intro hL
    unfold UDPSession.Close
    rw [if_neg hfalse, if_pos hL]
  · intro hL hO
    unfold UDPSession.Close
    rw [if_neg hfalse]
    simp [hL, hO]

/-- C4 (witness): three `Close` calls on an open socket-owning client
session. -/
theorem close_idempotent_witness :
    (closeN 3 ⟨false, 5, 0, false, true, false, false⟩).1
      = CloseRet.teardown :: List.replicate 2 CloseRet.errClosedPipe ∧
    (closeN 3 ⟨false, 5, 0, false, true, false, false⟩).2
      = (UDPSession.Close ⟨false, 5, 0, false, true, false, false⟩).2 ∧
    (UDPSession.Close ⟨false, 5, 0, false, true, false, false⟩).1
      = CloseRet.teardown ∧
    (UDPSession.Close ⟨false, 5, 0, false, true, false, false⟩).2.dieClosed
      = true ∧
    (UDPSession.Close ⟨false, 5, 0, false, true, false, false⟩).2.currEstab
      = 5 - 1 ∧
    (UDPSession.Close ⟨false, 5, 0, false, true, false, false⟩).2.flushCalls
      = 0 + 1 ∧
    (false = true →
      (UDPSession.Close ⟨false, 5, 0, false, true, false, false⟩).2.registered
        = false) ∧
    (false = false → true = true →
      (UDPSession.Close ⟨false, 5, 0, false, true, false, false⟩).2.socketClosed
        = true) :=
  close_idempotent ⟨false, 5, 0, false, true, false, false⟩ 3 rfl (by decide)

/-- C10: `SetMtu` returns `false` and leaves the session untouched exactly
when `mtu > 1500`; any `mtu ≤ 1500`, zero and negative values included, is
passed through to `kcp.SetMtu` with `true` returned — no lower bound at
this layer. -/
theorem setMtu_bound (st : MtuState) (mtu : Int) :
    ((UDPSession.SetMtu st mtu).1 = false ∧ (UDPSession.SetMtu st mtu).2 = st
      ↔ (mtuLimit : Int) < mtu) ∧
    (mtu ≤ (mtuLimit : Int) →
      UDPSession.SetMtu st mtu = (true, ⟨st.kcpMtuCalls ++ [mtu]⟩)) := by
  unfold UDPSession.SetMtu
  by_cases h : (mtuLimit : Int) < mtu
  · rw [if_pos h]
    exact ⟨by simp [h], fun h2 => absurd h (by omega)⟩
  · rw [if_neg h]
    refine ⟨⟨fun hc => absurd hc.1 (by simp), fun hc => absurd hc h⟩, fun _ => rfl⟩

/-- C10 (witness): a negative MTU is passed through with `true` returned. -/
theorem setMtu_bound_witness :
    UDPSession.SetMtu ⟨[]⟩ (-5) = (true, ⟨[] ++ [(-5 : Int)]⟩) :=
  (setMtu_bound ⟨[]⟩ (-5)).2 (by decide)

end KcpGo

namespace KcpGo

/-- Dropping the 16-byte nonce and then the 4-byte checksum drops the whole
20-byte crypto header. -/
theorem drop_nonce_crc (l : List Nat) :
    (l.drop nonceSize).drop crcSize = l.drop cryptHeaderSize := by
  rw [List.drop_drop]; rfl

/-- C3: with a cipher configured and a packet of length at least 20, a CRC32
mismatch between the checksum of the decrypted bytes after the checksum
field and the stored little-endian value at offset 16 increments
`InCsumErrors` by exactly 1 and produces no ARQ input, on the session path
and on the listener path alike. -/
theorem checksum_mismatch_counts_and_drops (decrypt : List Nat → List Nat)
    (crc : List Nat → Nat) (snOff ovh sessConv : Nat)
    (sessExists slack : Bool) (data : List Nat)
    (hlen : cryptHeaderSize ≤ data.length)
    (hcs : crc ((decrypt data).drop cryptHeaderSize)
      ≠ leUint32 ((decrypt data).drop nonceSize)) :
    UDPSession.packetInput (some decrypt) crc ovh data = ⟨1, 1, none⟩ ∧
    Listener.packetInput (some decrypt) crc snOff ovh sessExists sessConv
      slack data = ⟨1, 1, noEffect⟩ := by
  constructor
  · simp only [UDPSession.packetInput]
    rw [if_pos hlen, if_neg (by rw [drop_nonce_crc]; exact hcs)]
  · simp only [Listener.packetInput]
    rw [if_pos hlen, if_neg (by rw [drop_nonce_crc]; exact hcs)]

/-- C3 (witness): a concrete 20-byte packet whose stored checksum disagrees
with the CRC function. -/
theorem checksum_mismatch_counts_and_drops_witness :
    UDPSession.packetInput (some id) (fun _ => 1) 24 (List.replicate 20 0)
      = ⟨1, 1, none⟩ ∧
    Listener.packetInput (some id) (fun _ => 1) 12 24 false 0 false
      (List.replicate 20 0) = ⟨1, 1, noEffect⟩ :=
  checksum_mismatch_counts_and_drops id (fun _ => 1) 12 24 0 false false
    (List.replicate 20 0) (by decide) (by decide)

/-- C8: with a cipher configured, a packet shorter than 20 bytes is dropped
before decryption — no `Decrypt` call, no `InCsumErrors` increment, no ARQ
input — on both the session and listener paths. -/
theorem short_packet_dropped_undecrypted (decrypt : List Nat → List Nat)
    (crc : List Nat → Nat) (snOff ovh sessConv : Nat)
    (sessExists slack : Bool) (data : List Nat)
    (hlen : data.length < cryptHeaderSize) :
    UDPSession.packetInput (some decrypt) crc ovh data = ⟨0, 0, none⟩ ∧
    Listener.packetInput (some decrypt) crc snOff ovh sessExists sessConv
      slack data = ⟨0, 0, noEffect⟩ := by
  have hn : ¬(cryptHeaderSize ≤ data.length) := by omega
  constructor
  · simp only [UDPSession.packetInput]
    rw [if_neg hn]
  · simp only [Listener.packetInput]
    rw [if_neg hn]

/-- C8 (witness): a 3-byte packet on a ciphered session and listener. -/
theorem short_packet_dropped_undecrypted_witness :
    UDPSession.packetInput (some id) (fun _ => 0) 24 [1, 2, 3]
      = ⟨0, 0, none⟩ ∧
    Listener.packetInput (some id) (fun _ => 0) 12 24 false 0 false [1, 2, 3]
      = ⟨0, 0, noEffect⟩ :=
  short_packet_dropped_undecrypted id (fun _ => 0) 12 24 0 false false
    [1, 2, 3] (by decide)

/-- C5: with a cipher configured, the post-processor transforms an outbound
buffer by overwriting the first 16 bytes with the nonce, storing the CRC32
of the bytes from offset 20 little-endian at offset 16, and encrypting the
whole buffer; the frame beyond offset 20 entering encryption is
byte-for-byte the frame of the input buffer. -/
theorem postProcess_crypto_steps (nonce16 : List Nat) (crc : List Nat → Nat)
    (encrypt : List Nat → List Nat) (buf : List Nat)
    (hn : nonce16.length = nonceSize) (_hb : cryptHeaderSize ≤ buf.length) :
    UDPSession.cryptoWrap nonce16 crc encrypt buf
      = encrypt (nonce16 ++ leBytes32 (crc (buf.drop cryptHeaderSize))
          ++ buf.drop cryptHeaderSize) ∧
    (nonce16 ++ leBytes32 (crc (buf.drop cryptHeaderSize))
        ++ buf.drop cryptHeaderSize).drop cryptHeaderSize
      = buf.drop cryptHeaderSize := by
  have hdrop : ∀ l : List Nat,
      (nonce16 ++ l).drop cryptHeaderSize = l.drop crcSize := by
    intro l
    rw [← drop_nonce_crc, List.drop_left' hn]
  constructor
  · simp only [UDPSession.cryptoWrap]
    rw [List.take_left' hn, hdrop, drop_nonce_crc]
  · rw [List.append_assoc, hdrop, List.drop_left' (leBytes32_length _)]

/-- C5 (witness): the crypto steps on a concrete 22-byte buffer. -/
theorem postProcess_crypto_steps_witness :
    UDPSession.cryptoWrap (List.replicate 16 9) (fun _ => 5) id
        (List.replicate 22 1)
      = id (List.replicate 16 9 ++ leBytes32 5
          ++ (List.replicate 22 1).drop 20) ∧
    (List.replicate 16 9 ++ leBytes32 5
        ++ (List.replicate 22 1).drop 20).drop 20
      = (List.replicate 22 1).drop 20 :=
  postProcess_crypto_steps (List.replicate 16 9) (fun _ => 5) id
    (List.replicate 22 1) (by decide) (by decide)

end KcpGo

namespace KcpGo

/-- C2 (counterexample): a no-FEC 24-byte packet with conversation id 1,
`sn = 5`, arriving for an existing session with `conv = 2` and free accept
slack, is neither delivered to the session's `kcpInput` nor triggers a
close: the dispatcher drops it, while the claim requires delivery. -/
theorem dispatch_mismatch_nonzero_sn_drops :
    parseConvSn 12 24
        [1, 0, 0, 0, 0x51, 0, 0, 0, 0, 0, 0, 0, 5, 0, 0, 0, 0, 0, 0, 0, 0, 0, 0, 0]
      = (1, 5, true) ∧
    (1 : Nat) ≠ 2 ∧
    listenerDispatch 12 24 true 2 true
        [1, 0, 0, 0, 0x51, 0, 0, 0, 0, 0, 0, 0, 5, 0, 0, 0, 0, 0, 0, 0, 0, 0, 0, 0]
      = noEffect := by decide

/-- C2 (amended): for a datagram long enough for the ARQ overhead whose
remote address has an existing session — if the conversation id is not
recoverable or matches, the packet goes to the session's `kcpInput`; if it
is recoverable, mismatched and `sn = 0`, the old session is closed and a
replacement is created exactly when the accept queue has slack; if it is
recoverable, mismatched and `sn ≠ 0`, the packet is dropped without
delivery and without closing the session. -/
theorem dispatch_existing_session_cases (snOff ovh sessConv : Nat)
    (slack : Bool) (data : List Nat) (hlen : ovh ≤ data.length) :
    ((parseConvSn snOff ovh data).2.2 = false
        ∨ (parseConvSn snOff ovh data).1 = sessConv →
      listenerDispatch snOff ovh true sessConv slack data
        = ⟨some data, false, none⟩) ∧
    ((parseConvSn snOff ovh data).2.2 = true →
      (parseConvSn snOff ovh data).1 ≠ sessConv →
      (parseConvSn snOff ovh data).2.1 = 0 →
      listenerDispatch snOff ovh true sessConv slack data
        = ⟨none, true,
            if slack then some ((parseConvSn snOff ovh data).1, data)
            else none⟩) ∧
    ((parseConvSn snOff ovh data).2.2 = true →
      (parseConvSn snOff ovh data).1 ≠ sessConv →
      (parseConvSn snOff ovh data).2.1 ≠ 0 →
      listenerDispatch snOff ovh true sessConv slack data = noEffect) := by
  refine ⟨fun h => ?_, fun h1 h2 h3 => ?_, fun h1 h2 h3 => ?_⟩
  · simp only [listenerDispatch]
    rw [if_pos hlen, if_pos trivial, if_pos h]
  · simp only [listenerDispatch]
    rw [if_pos hlen, if_pos trivial, if_neg (by simp [h1, h2]), if_pos h3]
    cases slack <;> simp
  · simp only [listenerDispatch]
    rw [if_pos hlen, if_pos trivial, if_neg (by simp [h1, h2]), if_neg h3]

/-- C2 (witness): a matching conversation id is delivered to the existing
session. -/
theorem dispatch_existing_session_cases_witness :
    listenerDispatch 12 24 true 1 true
        [1, 0, 0, 0, 0x51, 0, 0, 0, 0, 0, 0, 0, 5, 0, 0, 0, 0, 0, 0, 0, 0, 0, 0, 0]
      = ⟨some [1, 0, 0, 0, 0x51, 0, 0, 0, 0, 0, 0, 0, 5, 0, 0, 0, 0, 0, 0, 0, 0, 0, 0, 0],
          false, none⟩ :=
  (dispatch_existing_session_cases 12 24 1 true
    [1, 0, 0, 0, 0x51, 0, 0, 0, 0, 0, 0, 0, 5, 0, 0, 0, 0, 0, 0, 0, 0, 0, 0, 0]
    (by decide)).1 (by decide)

/-- C6: with no existing session for the remote address, a session is
created (fed the packet, registered, enqueued on the accept queue) only if
the conversation id was recoverable and the accept queue has slack; with
the accept queue full nothing at all happens; and under recoverability,
slack and sufficient length the creation does occur, with no delivery to
an existing session and no close. -/
theorem new_session_requires_accept_slack (snOff ovh sessConv : Nat)
    (slack : Bool) (data : List Nat) :
    ((listenerDispatch snOff ovh false sessConv slack data).created ≠ none →
      (parseConvSn snOff ovh data).2.2 = true ∧ slack = true) ∧
    (slack = false →
      listenerDispatch snOff ovh false sessConv slack data = noEffect) ∧
    ((listenerDispatch snOff ovh false sessConv slack data).delivered = none ∧
      (listenerDispatch snOff ovh false sessConv slack data).oldClosed
        = false) ∧
    (ovh ≤ data.length → (parseConvSn snOff ovh data).2.2 = true →
      slack = true →
      listenerDispatch snOff ovh false sessConv slack data
        = ⟨none, false, some ((parseConvSn snOff ovh data).1, data)⟩) := by
  by_cases hlen : ovh ≤ data.length
  · by_cases hcr : (parseConvSn snOff ovh data).2.2 = true
      <;> by_cases hs : slack = true
    all_goals
      simp only [listenerDispatch, noEffect]
      rw [if_pos hlen, if_neg (by simp)]
    · rw [if_pos (by simp [hcr, hs])]
      exact ⟨fun _ => ⟨hcr, hs⟩, fun h => absurd h (by simp [hs]),
        ⟨rfl, rfl⟩, fun _ _ _ => rfl⟩
    · rw [if_neg (by simp [hs])]
      exact ⟨fun h => absurd rfl h, fun _ => rfl, ⟨rfl, rfl⟩,
        fun _ _ h => absurd h (by simp [hs])⟩
    · rw [if_neg (by simp [hcr])]
      exact ⟨fun h => absurd rfl h, fun _ => rfl, ⟨rfl, rfl⟩,
        fun _ h _ => absurd h hcr⟩
    · rw [if_neg (by simp [hcr])]
      exact ⟨fun h => absurd rfl h, fun _ => rfl, ⟨rfl, rfl⟩,
        fun _ h _ => absurd h hcr⟩
  · simp only [listenerDispatch, noEffect]
    rw [if_neg hlen]
    exact ⟨fun h => absurd rfl h, fun _ => rfl, ⟨rfl, rfl⟩,
      fun h => absurd h hlen⟩

/-- C6 (witness): with the accept queue full nothing happens. -/
theorem new_session_requires_accept_slack_witness :
    listenerDispatch 12 24 false 0 false
        [1, 0, 0, 0, 0x51, 0, 0, 0, 0, 0, 0, 0, 0, 0, 0, 0, 0, 0, 0, 0, 0, 0, 0, 0]
      = noEffect :=
  (new_session_requires_accept_slack 12 24 0 false
    [1, 0, 0, 0, 0x51, 0, 0, 0, 0, 0, 0, 0, 0, 0, 0, 0, 0, 0, 0, 0, 0, 0, 0, 0]).2.1
    rfl

end KcpGo

namespace KcpGo

/-- C7: `Read` drains the leftover stash first, returning
`min(len(dst), len(bufptr))` bytes and advancing the stash without touching
the ARQ queue; otherwise, with a pending ARQ message of positive size, the
message is delivered whole when it fits in `dst`, and otherwise `len(dst)`
bytes are returned with the remaining `size - len(dst)` bytes retained as
the new stash (enlarging the receive buffer when needed). -/
theorem read_priority_cases (d : Bool) (st : ReadState) (dstLen : Nat) :
    (st.bufptr ≠ [] →
      UDPSession.Read d st dstLen
        = .ok (min dstLen st.bufptr.length)
            (st.bufptr.take (min dstLen st.bufptr.length))
            { st with bufptr := st.bufptr.drop (min dstLen st.bufptr.length) }) ∧
    (∀ msg rest, st.bufptr = [] → st.rcvQueue = msg :: rest →
      0 < msg.length →
      (msg.length ≤ dstLen →
        UDPSession.Read d st dstLen
          = .ok msg.length msg { st with rcvQueue := rest }) ∧
      (dstLen < msg.length →
        UDPSession.Read d st dstLen
          = .ok dstLen (msg.take dstLen)
              ⟨msg.drop dstLen,
               if st.recvbufCap < msg.length then msg.length
               else st.recvbufCap,
               rest⟩ ∧
        (msg.drop dstLen).length = msg.length - dstLen)) := by
  constructor
  · intro h
    have hb : 0 < st.bufptr.length := List.length_pos.mpr h
    simp only [UDPSession.Read]
    rw [if_pos hb]
  · intro msg rest hb hq hm
    have hb0 : ¬(0 < st.bufptr.length) := by simp [hb]
    have hpeek : 0 < st.PeekSize := by
      simp only [ReadState.PeekSize, hq, List.headD_cons]
      exact hm
    constructor
    · intro hfit
      simp only [UDPSession.Read]
      rw [if_neg hb0, if_pos hpeek]
      simp only [hq, List.headD_cons, List.tail_cons]
      rw [if_pos hfit]
    · intro hbig
      refine ⟨?_, by simp⟩
      simp only [UDPSession.Read]
      rw [if_neg hb0, if_pos hpeek]
      simp only [hq, List.headD_cons, List.tail_cons]
      rw [if_neg (by omega)]

/-- C7 (witness): the stash case at a concrete state. -/
theorem read_priority_cases_witness :
    UDPSession.Read false ⟨[5, 6], 0, []⟩ 1
      = .ok (min 1 2) ([5, 6].take (min 1 2)) ⟨[5, 6].drop (min 1 2), 0, []⟩ :=
  (read_priority_cases false ⟨[5, 6], 0, []⟩ 1).1 (by decide)

/-- C9: after the session is closed, `Read` still returns buffered data
whenever the stash is non-empty or the ARQ queue has a pending message;
the closed-pipe error is reported only by a call that finds neither. -/
theorem read_after_close_drains (st : ReadState) (dstLen : Nat) :
    ((st.bufptr ≠ [] ∨ 0 < st.PeekSize) →
      ∃ n bytes st2, UDPSession.Read true st dstLen = .ok n bytes st2) ∧
    (UDPSession.Read true st dstLen = .errClosedPipe →
      st.bufptr = [] ∧ st.PeekSize = 0) := by
  constructor
  · intro h
    simp only [UDPSession.Read]
    by_cases hb : 0 < st.bufptr.length
    · rw [if_pos hb]
      exact ⟨_, _, _, rfl⟩
    · have hp : 0 < st.PeekSize := by
        rcases h with h | h
        · exact absurd (List.length_pos.mpr h) hb
        · exact h
      rw [if_neg hb, if_pos hp]
      by_cases hm : (st.rcvQueue.headD []).length ≤ dstLen
      · rw [if_pos hm]
        exact ⟨_, _, _, rfl⟩
      · rw [if_neg hm]
        exact ⟨_, _, _, rfl⟩
  · intro h
    by_cases hb : 0 < st.bufptr.length
    · simp only [UDPSession.Read] at h
      rw [if_pos hb] at h
      cases h
    · by_cases hp : 0 < st.PeekSize
      · simp only [UDPSession.Read] at h
        rw [if_neg hb, if_pos hp] at h
        by_cases hm : (st.rcvQueue.headD []).length ≤ dstLen
        · rw [if_pos hm] at h
          cases h
        · rw [if_neg hm] at h
          cases h
      · exact ⟨List.length_eq_zero.mp (by omega), by omega⟩

/-- C9 (witness): a closed session with one stashed byte still delivers it. -/
theorem read_after_close_drains_witness :
    ∃ n bytes st2,
      UDPSession.Read true ⟨[7], 0, []⟩ 5 = ReadOutcome.ok n bytes st2 :=
  (read_after_close_drains ⟨[7], 0, []⟩ 5).1 (Or.inl (by decide))

end KcpGo
